import Mathlib

/-
Verification of the BigAko chat server core (src/main.py) against its
natural-language specification.  The Python code is shallowly embedded:

  * byte strings are lists of characters (all relevant data is ASCII, one
    character per byte);
  * the SQLite tables are Lean lists (`users`, `db`) together with the
    AUTOINCREMENT counter `nextId`;
  * the in-memory structures (`message_history`, `session_tokens`) and the
    uploads directory are further fields of an explicit `ServerState`;
  * sources of randomness (salt, session token, uuid) and the clock are
    passed as extra parameters;
  * Python exceptions inside the multipart decoder are modelled with
    `Option` (`none` = an exception reached the enclosing handler).
-/

set_option maxRecDepth 20000

/-- Bytes are modelled as lists of characters, one character per byte. -/
abbrev Bytes := List Char

/-- Worker for `pySplit`, structurally recursive on a fuel argument that the
caller sets to more than the length of the input. -/
def pySplitGo (sep : Bytes) : Nat → Bytes → Bytes → List Bytes
  | 0, l, acc => [acc.reverse ++ l]
  | fuel + 1, l, acc =>
    match l with
    | [] => [acc.reverse]
    | c :: rest =>
      if sep.isPrefixOf (c :: rest) then
        acc.reverse :: pySplitGo sep fuel ((c :: rest).drop sep.length) []
      else
        pySplitGo sep fuel rest (c :: acc)

/-- Python `data.split(sep)` for a non-empty separator: split on each exact,
non-overlapping occurrence, scanning left to right. -/
def pySplit (sep l : Bytes) : List Bytes :=
  pySplitGo sep (l.length + 1) l []

/-- Index of the first occurrence of `sub` in the list, if any. -/
def findSub (sub : Bytes) : Bytes → Option Nat
  | [] => if sub.isEmpty then some 0 else none
  | c :: rest =>
    if sub.isPrefixOf (c :: rest) then some 0
    else (findSub sub rest).map (· + 1)

/-- Python `l.find(sub, start)`: index of the first occurrence at or after
`start`, and -1 when there is none.  A negative `start` counts from the end,
clamped at zero, as in Python. -/
def pyFind (sub l : Bytes) (start : Int) : Int :=
  let s : Nat := if start < 0 then (start + l.length).toNat else start.toNat
  match findSub sub (l.drop s) with
  | some i => ((s + i : Nat) : Int)
  | none => -1

/-- Normalisation of a Python slice index: negative indices count from the
end and everything is clamped to the list's length. -/
def pyIdx (len : Nat) (i : Int) : Nat :=
  if i < 0 then (i + len).toNat else min i.toNat len

/-- Python slice `l[a:b]`. -/
def pySlice (l : Bytes) (a b : Int) : Bytes :=
  (l.take (pyIdx l.length b)).drop (pyIdx l.length a)

/-- Python `part.split(sep, 1)` destructured into exactly two pieces;
`none` models the ValueError raised when the separator is absent. -/
def splitOnce (sep l : Bytes) : Option (Bytes × Bytes) :=
  match findSub sep l with
  | some i => some (l.take i, l.drop (i + sep.length))
  | none => none

/-- Index of the last occurrence of `sub` in the list, if any. -/
def rfindSub (sub : Bytes) : Bytes → Option Nat
  | [] => if sub.isEmpty then some 0 else none
  | c :: rest =>
    match rfindSub sub rest with
    | some i => some (i + 1)
    | none => if sub.isPrefixOf (c :: rest) then some 0 else none

/-- Python `sub in l` on byte strings: contiguous-substring containment. -/
def containsSub (sub l : Bytes) : Bool :=
  (findSub sub l).isSome

/-- Python `l.rsplit(sep, 1)[0]`: everything before the last occurrence of
`sep`, or the whole input when `sep` does not occur. -/
def stripAfterLast (sep l : Bytes) : Bytes :=
  match rfindSub sep l with
  | some i => l.take i
  | none => l

/-- Header marker `name="file"` tested by the decoder. -/
def fileMarker : Bytes := "name=\"file\"".data

/-- Header marker `filename="` tested and searched by the decoder. -/
def filenameMarker : Bytes := "filename=\"".data

/-- Header marker `name="message"` tested by the decoder. -/
def messageMarker : Bytes := "name=\"message\"".data

/-- The blank line separating headers from a part's payload. -/
def crlfcrlf : Bytes := "\r\n\r\n".data

/-- A single line terminator. -/
def crlfBytes : Bytes := "\r\n".data

/-- The loop of `BigAkoHandler.handle_multipart` over the boundary-split
parts, carrying the `file_data`, `filename` and `message_text` variables;
`none` models an exception escaping the loop. -/
def decodeParts : List Bytes → Option Bytes → Option Bytes → Bytes →
    Option (Option Bytes × Option Bytes × Bytes)
  | [], fd, fn, msg => some (fd, fn, msg)
  | part :: rest, fd, fn, msg =>
    if containsSub fileMarker part && containsSub filenameMarker part then
      match splitOnce crlfcrlf part with
      | none => none
      | some (headers, content) =>
        let fs : Int := pyFind filenameMarker headers 0 + 10
        let fe : Int := pyFind ['"'] headers fs
        decodeParts rest (some (stripAfterLast crlfBytes content))
          (some (pySlice headers fs fe)) msg
    else if containsSub messageMarker part then
      match splitOnce crlfcrlf part with
      | none => none
      | some (_, content) =>
        decodeParts rest fd fn (stripAfterLast crlfBytes content)
    else
      decodeParts rest fd fn msg

/-- The decoding phase of `handle_multipart`: split the body on
`--boundary` and run the part loop. -/
def decodeMultipart (boundary body : Bytes) :
    Option (Option Bytes × Option Bytes × Bytes) :=
  decodeParts (pySplit ('-' :: '-' :: boundary) body) none none []

/-- A row of the `users` table (`created_at` is filled in by the database
default and never read by the code, so it is not modelled). -/
structure UserRow where
  username : String
  password_hash : String
  salt : String
deriving DecidableEq, Repr

/-- A row of the `messages` table. -/
structure MessageRow where
  id : Nat
  username : String
  message : String
  message_type : String
  file_name : Option String
  file_size : Option Nat
  timestamp : Nat
deriving DecidableEq, Repr

/-- The dictionary shape built both for the in-memory `message_history`
mirror and for the rows returned by `get_recent_messages` (the same six
fields in both cases). -/
structure MsgDict where
  username : String
  message : String
  message_type : String
  file_name : Option String
  file_size : Option Nat
  timestamp : Nat
deriving DecidableEq, Repr

/-- The whole mutable state touched by the core: the two SQLite tables with
the AUTOINCREMENT counter, the in-memory mirror and session map, and the
uploads directory (stored name, stored bytes). -/
structure ServerState where
  users : List UserRow
  db : List MessageRow
  nextId : Nat
  mirror : List MsgDict
  sessions : List (String × String)
  uploads : List (String × Bytes)
deriving DecidableEq, Repr

/-- The state of a freshly started server over an empty database. -/
def initState : ServerState :=
  { users := [], db := [], nextId := 1, mirror := [], sessions := [], uploads := [] }

/-- `BigAkoServer.hash_password`, with the SHA-256 digest abstracted as a
function parameter: the code hashes the concatenation `password + salt`. -/
def hash_password (digest : String → String) (password salt : String) : String :=
  digest (password ++ salt)

/-- `BigAkoServer.register_user`.  The generated salt is passed explicitly;
the UNIQUE constraint on `username` turns the insert into a failure exactly
when the username is already present. -/
def register_user (digest : String → String) (salt : String)
    (username password : String) (st : ServerState) : Bool × ServerState :=
  if st.users.any (fun r => r.username == username) then (false, st)
  else
    (true, { st with
      users := st.users ++ [⟨username, hash_password digest password salt, salt⟩] })

/-- `BigAkoServer.verify_user`: fetch the stored hash and salt for the
username, recompute and compare; absent users verify as false. -/
def verify_user (digest : String → String) (username password : String)
    (st : ServerState) : Bool :=
  match st.users.find? (fun r => r.username == username) with
  | some r => hash_password digest password r.salt == r.password_hash
  | none => false

/-- `BigAkoServer.add_message`: insert the durable row (the AUTOINCREMENT id
is `nextId`), append the same dictionary to the mirror and truncate it to its
last 100 entries when it exceeds 100. -/
def add_message (username message message_type : String)
    (file_name : Option String) (file_size : Option Nat) (now : Nat)
    (st : ServerState) : ServerState :=
  let hist := st.mirror ++ [⟨username, message, message_type, file_name, file_size, now⟩]
  { st with
    db := st.db ++ [⟨st.nextId, username, message, message_type, file_name, file_size, now⟩],
    nextId := st.nextId + 1,
    mirror := if hist.length > 100 then hist.drop (hist.length - 100) else hist }

/-- Insertion of a row into a list sorted by descending id. -/
def insertDescById (r : MessageRow) : List MessageRow → List MessageRow
  | [] => [r]
  | x :: xs => if x.id ≤ r.id then r :: x :: xs else x :: insertDescById r xs

/-- The `ORDER BY id DESC` read of the `messages` table. -/
def sortByIdDesc : List MessageRow → List MessageRow
  | [] => []
  | x :: xs => insertDescById x (sortByIdDesc xs)

/-- Projection of a durable row onto the dictionary shape returned to the
client (the id column is not selected). -/
def rowToDict (r : MessageRow) : MsgDict :=
  ⟨r.username, r.message, r.message_type, r.file_name, r.file_size, r.timestamp⟩

/-- `BigAkoServer.get_recent_messages`: read the durable rows ordered by id
descending, keep `limit` of them, build their dictionaries and reverse the
list into chronological order. -/
def get_recent_messages (limit : Nat) (st : ServerState) : List MsgDict :=
  (((sortByIdDesc st.db).take limit).map rowToDict).reverse

/-- Lookup in the session dictionary; a `none` token (no cookie) is not a
key.  This is both `session_tokens.get(token)` and the membership test
`token in session_tokens` (via `Option.isSome`). -/
def session_resolve (tok : Option String) (m : List (String × String)) : Option String :=
  match tok with
  | none => none
  | some t => (m.find? (fun p => p.1 == t)).map (fun p => p.2)

/-- Python dictionary assignment `m[k] = v`: overwrite the existing key or
append a fresh binding. -/
def dict_set (k v : String) (m : List (String × String)) : List (String × String) :=
  if m.any (fun p => p.1 == k) then
    m.map (fun p => if p.1 == k then (k, v) else p)
  else m ++ [(k, v)]

/-- The logout deletion `if token in session_tokens: del session_tokens[token]`
(keys are unique in a Python dictionary, so deleting the key removes exactly
the bindings whose key matches). -/
def session_revoke (tok : Option String) (m : List (String × String)) :
    List (String × String) :=
  match tok with
  | none => m
  | some t =>
    if (m.find? (fun p => p.1 == t)).isSome then m.filter (fun p => p.1 != t)
    else m

/-- `BigAkoHandler.verify_session`: the request's session token is a key of
the session dictionary. -/
def verify_session (tok : Option String) (st : ServerState) : Bool :=
  (session_resolve tok st.sessions).isSome

/-- The visible outcome of one request, as written by the handler. -/
inductive Response where
  | jsonSuccess
  | jsonError (msg : String)
  | jsonMessages (msgs : List MsgDict)
  | jsonUsername (u : Option String)
  | httpError (code : Nat)
  | logoutOk
  | noResponse
deriving DecidableEq, Repr

/-- The `GET /api/messages` route: session-guarded read of the recent
messages (default limit 50). -/
def api_messages (tok : Option String) (st : ServerState) : Response × ServerState :=
  if verify_session tok st then (.jsonMessages (get_recent_messages 50 st), st)
  else (.httpError 401, st)

/-- The `GET /api/userinfo` route: session-guarded read of the
authenticated username. -/
def api_userinfo (tok : Option String) (st : ServerState) : Response × ServerState :=
  if verify_session tok st then (.jsonUsername (session_resolve tok st.sessions), st)
  else (.httpError 401, st)

/-- `BigAkoHandler.handle_message` (form-encoded text message). -/
def handle_message (message : String) (tok : Option String) (now : Nat)
    (st : ServerState) : Response × ServerState :=
  if verify_session tok st then
    match session_resolve tok st.sessions with
    | some username =>
      if message == "" then (.jsonError "Invalid message", st)
      else (.jsonSuccess, add_message username message "text" none none now st)
    | none => (.jsonError "Invalid message", st)
  else (.httpError 401, st)

/-- `BigAkoHandler.handle_login`, with the generated session token passed
explicitly; on success the token is bound to the username. -/
def handle_login (digest : String → String) (token : String)
    (username password : String) (st : ServerState) : Response × ServerState :=
  if username == "" || password == "" then (.jsonError "Invalid data", st)
  else if verify_user digest username password st then
    (.jsonSuccess, { st with sessions := dict_set token username st.sessions })
  else (.jsonError "Invalid credentials", st)

/-- `BigAkoHandler.handle_logout`: conditionally delete the token and always
answer 200 with a cleared cookie. -/
def handle_logout (tok : Option String) (st : ServerState) : Response × ServerState :=
  (.logoutOk, { st with sessions := session_revoke tok st.sessions })

/-- The tail of `handle_multipart` after the decoding loop, acting on the
decoded `(file_data, filename, message_text)` triple (`none` = the decoding
raised, answered by the except clause).  Note the order of effects on the
file path: size check, write of the attachment into `uploads`, and only then
the session check guarding `add_message`. -/
def processDecoded (dec : Option (Option Bytes × Option Bytes × Bytes))
    (fileId : String) (tok : Option String) (now : Nat) (st : ServerState) :
    Response × ServerState :=
  match dec with
  | none => (.jsonError "File upload failed", st)
  | some (fd?, fn?, txt) =>
    match fd?, fn? with
    | some fd, some fn =>
      if !fd.isEmpty && !fn.isEmpty then
        if fd.length > 50 * 1024 * 1024 then (.jsonError "File too large", st)
        else
          let stored := fileId ++ "_" ++ String.mk fn
          let st1 := { st with uploads := st.uploads ++ [(stored, fd)] }
          match session_resolve tok st.sessions with
          | some username =>
            (.jsonSuccess,
              add_message username
                (if txt.isEmpty then "Shared a file" else String.mk txt)
                "file" (some stored) (some fd.length) now st1)
          | none => (.httpError 401, st1)
      else (.noResponse, st)
    | _, _ => (.noResponse, st)

/-- `BigAkoHandler.handle_multipart`: decode the body, then run the upload
logic.  The uuid for the stored filename is passed explicitly. -/
def handle_multipart (boundary body : Bytes) (fileId : String)
    (tok : Option String) (now : Nat) (st : ServerState) :
    Response × ServerState :=
  processDecoded (decodeMultipart boundary body) fileId tok now st

/-- A predicate that fails on every element of the first list pushes
`find?` past an append. -/
theorem find?_append_of_all_false {α : Type} (p : α → Bool) (l₁ l₂ : List α)
    (h : ∀ x ∈ l₁, p x = false) : (l₁ ++ l₂).find? p = l₂.find? p := by
  rw [List.find?_append]
  have h1 : l₁.find? p = none := List.find?_eq_none.mpr (by intro x hx; simp [h x hx])
  simp [h1]

/-- Overwriting the key `t` in a dictionary that contains it puts the new
binding where `find?` sees it first. -/
theorem find?_map_dict_set (t u : String) (m : List (String × String))
    (hany : m.any (fun p => p.1 == t) = true) :
    (m.map (fun p => if p.1 == t then (t, u) else p)).find? (fun p => p.1 == t) =
      some (t, u) := by
  induction m with
  | nil => simp at hany
  | cons a m ih =>
    by_cases ha : a.1 = t
    · rw [List.map_cons, if_pos (by simp [ha]), List.find?_cons_of_pos _ (by simp)]
    · have hm : m.any (fun p => p.1 == t) = true := by
        simpa [ha] using hany
      rw [List.map_cons, if_neg (by simp [ha]),
        List.find?_cons_of_neg _ (by simp [ha])]
      exact ih hm

/-- Unfolding of registration on a fresh username: it succeeds and appends
exactly one account row. -/
theorem register_user_fresh (digest : String → String) (salt u p : String)
    (st st' : ServerState)
    (hreg : register_user digest salt u p st = (true, st')) :
    st.users.any (fun r => r.username == u) = false ∧
    st'.users = st.users ++ [⟨u, digest (p ++ salt), salt⟩] := by
  unfold register_user at hreg
  rcases hany : st.users.any (fun r => r.username == u) with _ | _
  · rw [if_neg (by simp [hany])] at hreg
    have := congrArg Prod.snd hreg
    simp only at this
    subst this
    exact ⟨rfl, rfl⟩
  · rw [if_pos hany] at hreg
    have := congrArg Prod.fst hreg
    simp at this

/-- After a successful registration the freshly inserted row is the one
`verify_user` finds, and the original password verifies. -/
theorem verify_after_register (digest : String → String) (salt u p : String)
    (st st' : ServerState)
    (hreg : register_user digest salt u p st = (true, st')) :
    verify_user digest u p st' = true := by
  obtain ⟨hany, husers⟩ := register_user_fresh digest salt u p st st' hreg
  unfold verify_user
  rw [husers, find?_append_of_all_false _ _ _ (by
    intro x hx
    have := List.any_eq_false.mp hany x hx
    simpa using this)]
  simp [hash_password]

/--
C2: a username and password pair accepted by register verifies with the
same password, fails to verify with any different password (given that the
digest is collision-free on its inputs), and a username with no account row
never verifies.
-/
theorem claim_C2 (digest : String → String) (u p p' q pw salt : String)
    (st st' st0 : ServerState)
    (hinj : Function.Injective digest)
    (hne : p' ≠ p)
    (hreg : register_user digest salt u p st = (true, st'))
    (hq : st0.users.any (fun r => r.username == q) = false) :
    verify_user digest u p st' = true ∧
    verify_user digest u p' st' = false ∧
    verify_user digest q pw st0 = false := by
  obtain ⟨hany, husers⟩ := register_user_fresh digest salt u p st st' hreg
  refine ⟨verify_after_register digest salt u p st st' hreg, ?_, ?_⟩
  · unfold verify_user
    rw [husers, find?_append_of_all_false _ _ _ (by
      intro x hx
      have := List.any_eq_false.mp hany x hx
      simpa using this)]
    simp only [List.find?_cons_of_pos, beq_self_eq_true]
    simp only [hash_password, beq_eq_false_iff_ne, ne_eq]
    intro hcol
    have hcat : p' ++ salt = p ++ salt := hinj hcol
    have hdata : p'.data ++ salt.data = p.data ++ salt.data := by
      have := congrArg String.data hcat
      simpa using this
    exact hne (String.ext (List.append_inj_left' hdata rfl))
  · unfold verify_user
    have h0 : st0.users.find? (fun r => r.username == q) = none :=
      List.find?_eq_none.mpr (by
        intro x hx
        have := List.any_eq_false.mp hq x hx
        simpa using this)
    simp [h0]

/-- Witness for C2 at the identity digest over an empty database. -/
theorem claim_C2_witness :
    verify_user id "alice" "pw" ⟨[⟨"alice", "pws", "s"⟩], [], 1, [], [], []⟩ = true ∧
    verify_user id "alice" "xx" ⟨[⟨"alice", "pws", "s"⟩], [], 1, [], [], []⟩ = false ∧
    verify_user id "bob" "pw" initState = false :=
  claim_C2 id "alice" "pw" "xx" "bob" "pw" "s" initState
    ⟨[⟨"alice", "pws", "s"⟩], [], 1, [], [], []⟩ initState
    (fun _ _ h => h) (by decide) (by decide) (by decide)

/--
C7: registering the same username a second time fails (whatever the second
password and salt), leaves the state exactly as it was, and the account
still verifies with its original password.
-/
theorem claim_C7 (digest : String → String) (salt salt2 u p p2 : String)
    (st st' : ServerState)
    (hreg : register_user digest salt u p st = (true, st')) :
    register_user digest salt2 u p2 st' = (false, st') ∧
    verify_user digest u p st' = true := by
  obtain ⟨hany, husers⟩ := register_user_fresh digest salt u p st st' hreg
  constructor
  · unfold register_user
    rw [if_pos (by simp [husers])]
  · exact verify_after_register digest salt u p st st' hreg

/-- Witness for C7 at the identity digest over an empty database. -/
theorem claim_C7_witness :
    register_user id "s2" "alice" "other" ⟨[⟨"alice", "pws", "s"⟩], [], 1, [], [], []⟩ =
      (false, ⟨[⟨"alice", "pws", "s"⟩], [], 1, [], [], []⟩) ∧
    verify_user id "alice" "pw" ⟨[⟨"alice", "pws", "s"⟩], [], 1, [], [], []⟩ = true :=
  claim_C7 id "s" "s2" "alice" "pw" "other" initState
    ⟨[⟨"alice", "pws", "s"⟩], [], 1, [], [], []⟩ (by decide)

/--
C8: a freshly issued token resolves to its user; after revoking a token it
no longer resolves; and revoking a token that is absent from the registry
is a no-op that leaves the session map unchanged.
-/
theorem claim_C8 (u t : String) (m m0 : List (String × String))
    (h : session_resolve (some t) m0 = none) :
    session_resolve (some t) (dict_set t u m) = some u ∧
    session_resolve (some t) (session_revoke (some t) m) = none ∧
    session_revoke (some t) m0 = m0 := by
  simp only [session_resolve, session_revoke, dict_set] at h ⊢
  refine ⟨?_, ?_, ?_⟩
  · rcases hany : m.any (fun p => p.1 == t) with _ | _
    · have hnone : m.find? (fun p => p.1 == t) = none :=
        List.find?_eq_none.mpr (fun x hx => by
          simpa using List.any_eq_false.mp hany x hx)
      simp [hany, hnone]
    · rw [if_pos rfl, find?_map_dict_set t u m hany]
      rfl
  · rcases hf : (m.find? (fun p => p.1 == t)).isSome with _ | _
    · have hnone : m.find? (fun p => p.1 == t) = none := by
        rcases hopt : m.find? (fun p => p.1 == t) with _ | v
        · exact hopt
        · rw [hopt] at hf; simp at hf
      simp [hnone]
    · have hfilter : (m.filter (fun p => p.1 != t)).find? (fun p => p.1 == t) = none :=
        List.find?_eq_none.mpr (fun x hx => by
          simpa using (List.mem_filter.mp hx).2)
      simp [hf, hfilter]
  · have hnone : m0.find? (fun p => p.1 == t) = none := by
      rcases hopt : m0.find? (fun p => p.1 == t) with _ | v
      · exact hopt
      · rw [hopt] at h; simp at h
    simp [hnone]

/-- Witness for C8 on a one-entry registry and the empty registry. -/
theorem claim_C8_witness :
    session_resolve (some "tok") (dict_set "tok" "alice" [("k", "v")]) = some "alice" ∧
    session_resolve (some "tok") (session_revoke (some "tok") [("k", "v")]) = none ∧
    session_revoke (some "tok") [] = [] :=
  claim_C8 "alice" "tok" [("k", "v")] [] (by decide)

/-- Concrete multipart body: a file part with field name file, filename
photo.png and a ten-byte payload, followed by a text part with field name
message and content hello. -/
def bodyFileAndText : Bytes :=
  ("--BOUND\r\nContent-Disposition: form-data; name=\"file\"; filename=\"photo.png\"\r\nContent-Type: image/png\r\n\r\n0123456789\r\n--BOUND\r\nContent-Disposition: form-data; name=\"message\"\r\n\r\nhello\r\n--BOUND--\r\n").data

/-- Concrete multipart body whose file-shaped part (field name file) carries
no filename marker. -/
def bodyFileNoFilename : Bytes :=
  ("--BOUND\r\nContent-Disposition: form-data; name=\"file\"\r\nContent-Type: application/octet-stream\r\n\r\nAAAA\r\n--BOUND--\r\n").data

/-- Concrete multipart body with only a text part. -/
def bodyTextOnly : Bytes :=
  ("--B\r\nContent-Disposition: form-data; name=\"message\"\r\n\r\nhi\r\n--B--\r\n").data

/-- Concrete multipart body whose file part carries an explicitly empty
filename marker. -/
def bodyFileEmptyFilename : Bytes :=
  ("--BOUND\r\nContent-Disposition: form-data; name=\"file\"; filename=\"\"\r\nContent-Type: application/octet-stream\r\n\r\nAAAA\r\n--BOUND--\r\n").data

/--
C5: decoding the body with a photo.png file part (ten payload bytes) and a
hello text part yields the file tuple with filename photo.png and exactly
the ten payload bytes (trailing line terminator stripped) plus the text
hello; decoding the body whose file-shaped part has no filename marker
yields no file tuple.
-/
theorem claim_C5 :
    decodeMultipart "BOUND".data bodyFileAndText =
      some (some "0123456789".data, some "photo.png".data, "hello".data) ∧
    ("0123456789".data).length = 10 ∧
    decodeMultipart "BOUND".data bodyFileNoFilename = some (none, none, []) := by
  decide

/-- The emptiness test on a list longer than the upload limit fails. -/
theorem isEmpty_false_of_big {l : Bytes} (h : l.length > 50 * 1024 * 1024) :
    l.isEmpty = false := by
  cases l
  · simp at h
  · rfl

/--
C6 (amended): an upload whose decoded file payload exceeds 50 MiB is
answered with the payload-too-large client error when the decoded filename
is non-empty, and with no response at all (in particular not the
payload-too-large error) when the decoded filename is empty; in both cases
the whole state - message store and uploads area included - is untouched.
-/
theorem claim_C6 (fd fn txt txt2 : Bytes) (fileId fileId2 : String)
    (tok tok2 : Option String) (now now2 : Nat) (st st2 : ServerState)
    (hfn : fn.isEmpty = false)
    (hbig : fd.length > 50 * 1024 * 1024) :
    processDecoded (some (some fd, some fn, txt)) fileId tok now st =
      (.jsonError "File too large", st) ∧
    processDecoded (some (some fd, some [], txt2)) fileId2 tok2 now2 st2 =
      (.noResponse, st2) := by
  have hfd : fd.isEmpty = false := isEmpty_false_of_big hbig
  constructor
  · simp only [processDecoded, hfd, hfn, Bool.not_false, Bool.and_self, if_true]
    rw [if_pos hbig]
  · simp only [processDecoded, List.isEmpty_nil, Bool.not_true, Bool.and_false,
      Bool.false_eq_true, if_false]

/-- Witness for C6: a payload one byte over the limit, once with filename
a and once with the empty filename. -/
theorem claim_C6_witness :
    (List.replicate (50 * 1024 * 1024 + 1) 'a').length > 50 * 1024 * 1024 ∧
    (['a'] : Bytes).isEmpty = false ∧
    (processDecoded
      (some (some (List.replicate (50 * 1024 * 1024 + 1) 'a'), some ['a'], []))
      "fid" none 0 initState = (.jsonError "File too large", initState) ∧
    processDecoded
      (some (some (List.replicate (50 * 1024 * 1024 + 1) 'a'), some [], []))
      "fid" none 0 initState = (.noResponse, initState)) :=
  ⟨by rw [List.length_replicate]; omega, rfl,
    claim_C6 (List.replicate (50 * 1024 * 1024 + 1) 'a') ['a'] [] [] "fid" "fid"
      none none 0 0 initState initState rfl (by rw [List.length_replicate]; omega)⟩

/-- Counterexample to C6 as frozen: a file part carrying filename with
empty quotes still decodes to a file payload (both markers are present)
with an empty decoded filename, and on an oversized payload with an empty
decoded filename the handler sends no response at all - in particular not
the payload-too-large client error. -/
theorem claim_C6_counterexample :
    decodeMultipart "BOUND".data bodyFileEmptyFilename =
      some (some "AAAA".data, some [], []) ∧
    processDecoded
      (some (some (List.replicate (50 * 1024 * 1024 + 1) 'a'), some [], []))
      "fid2" none 0 initState = (.noResponse, initState) ∧
    Response.noResponse ≠ Response.jsonError "File too large" ∧
    (List.replicate (50 * 1024 * 1024 + 1) 'a').length > 50 * 1024 * 1024 := by
  refine ⟨by decide, ?_, by decide, by rw [List.length_replicate]; omega⟩
  simp only [processDecoded, List.isEmpty_nil, Bool.not_true, Bool.and_false,
    Bool.false_eq_true, if_false]

/--
C10: the message record created by a successful file upload carries the
body `message_text or 'Shared a file'`: the literal string Shared a file
when the decoded text is empty or absent, the decoded text otherwise -- in
either case a non-empty body, with kind file.
-/
theorem claim_C10 (fd fn txt : Bytes) (fileId : String) (tok : Option String)
    (now : Nat) (st : ServerState) (u : String)
    (hfd : fd.isEmpty = false) (hfn : fn.isEmpty = false)
    (hsize : fd.length ≤ 50 * 1024 * 1024)
    (hres : session_resolve tok st.sessions = some u) :
    (processDecoded (some (some fd, some fn, txt)) fileId tok now st).2.db =
      st.db ++ [⟨st.nextId, u, if txt.isEmpty then "Shared a file" else String.mk txt,
        "file", some (fileId ++ "_" ++ String.mk fn), some fd.length, now⟩] ∧
    (if txt.isEmpty then "Shared a file" else String.mk txt) ≠ "" := by
  constructor
  · simp only [processDecoded, hfd, hfn, Bool.not_false, Bool.and_self, if_true]
    rw [if_neg (by omega)]
    simp only [hres]
    simp [add_message]
  · rcases txt with _ | ⟨c, cs⟩
    · simp
    · simp only [List.isEmpty_cons, if_false, Bool.false_eq_true]
      intro hcontr
      have := congrArg String.data hcontr
      simp at this

/-- Witness for C10: an authenticated upload with an empty text part. -/
theorem claim_C10_witness :
    (processDecoded (some (some "0123456789".data, some "photo.png".data, []))
        "fid" (some "t")
        0 { initState with sessions := [("t", "alice")] }).2.db =
      [⟨1, "alice", "Shared a file", "file", some "fid_photo.png", some 10, 0⟩] ∧
    ("Shared a file" : String) ≠ "" := by
  have h := claim_C10 "0123456789".data "photo.png".data [] "fid" (some "t") 0
    { initState with sessions := [("t", "alice")] } "alice"
    (by decide) (by decide) (by decide) (by decide)
  simpa [initState] using h

/-- Over parts none of which carries both file markers, the decoding loop
never sets `file_data`. -/
theorem decodeParts_no_file (parts : List Bytes) (fn : Option Bytes) (msg : Bytes)
    (h : ∀ part ∈ parts,
      (containsSub fileMarker part && containsSub filenameMarker part) = false) :
    decodeParts parts none fn msg = none ∨
    ∃ fn' txt, decodeParts parts none fn msg = some (none, fn', txt) := by
  induction parts generalizing fn msg with
  | nil => exact Or.inr ⟨fn, msg, rfl⟩
  | cons part rest ih =>
    have hp := h part (List.mem_cons_self part rest)
    have hrest : ∀ q ∈ rest,
        (containsSub fileMarker q && containsSub filenameMarker q) = false :=
      fun q hq => h q (List.mem_cons_of_mem _ hq)
    simp only [decodeParts, hp, Bool.false_eq_true, if_false]
    by_cases hmsg : containsSub messageMarker part = true
    · simp only [hmsg, if_true]
      rcases hsplit : splitOnce crlfcrlf part with _ | ⟨hd, content⟩
      · simp [hsplit]
      · simp only [hsplit]
        exact ih _ _ hrest
    · simp only [Bool.not_eq_true] at hmsg
      simp only [hmsg, Bool.false_eq_true, if_false]
      exact ih _ _ hrest

/--
C9: a multipart body none of whose parts carries both the name file and the
filename markers (in particular one with only a text part) leaves the whole
state untouched: no message record, no attachment, the decoded text is
discarded.
-/
theorem claim_C9 (boundary body : Bytes) (fileId : String) (tok : Option String)
    (now : Nat) (st : ServerState)
    (h : ∀ part ∈ pySplit ('-' :: '-' :: boundary) body,
      (containsSub fileMarker part && containsSub filenameMarker part) = false) :
    (handle_multipart boundary body fileId tok now st).2 = st := by
  unfold handle_multipart decodeMultipart
  rcases decodeParts_no_file (pySplit ('-' :: '-' :: boundary) body) none [] h with
    hd | ⟨fn', txt', hd⟩
  · simp [processDecoded, hd]
  · simp [processDecoded, hd]

/-- Witness for C9: a text-only multipart body changes nothing. -/
theorem claim_C9_witness :
    (∀ part ∈ pySplit ('-' :: '-' :: "B".data) bodyTextOnly,
      (containsSub fileMarker part && containsSub filenameMarker part) = false) ∧
    (handle_multipart "B".data bodyTextOnly "fid" none 0 initState).2 = initState :=
  ⟨by decide, claim_C9 "B".data bodyTextOnly "fid" none 0 initState (by decide)⟩

/-- Revoking a token that does not resolve leaves the session map
unchanged. -/
theorem session_revoke_of_resolve_none (tok : Option String)
    (m : List (String × String)) (h : session_resolve tok m = none) :
    session_revoke tok m = m := by
  rcases tok with _ | t
  · rfl
  · simp only [session_resolve] at h
    have hnone : m.find? (fun p => p.1 == t) = none := by
      rcases hopt : m.find? (fun p => p.1 == t) with _ | v
      · exact hopt
      · rw [hopt] at h; simp at h
    simp [session_revoke, hnone]

/--
C1 (amended): with a session token that does not resolve, the post-message,
recent-messages and current-user endpoints answer 401 and leave the state
unchanged; logout answers its ordinary 200 success response (not an
authorization-denied error) and leaves the state unchanged; and a multipart
upload carrying a usable file within the size limit answers 401, creates no
message record and changes no session state, but does store the attachment
file before the session check runs.
-/
theorem claim_C1 (tok : Option String) (message fileId : String) (now : Nat)
    (st : ServerState) (fd fn txt : Bytes)
    (hres : session_resolve tok st.sessions = none)
    (hfd : fd.isEmpty = false) (hfn : fn.isEmpty = false)
    (hsize : fd.length ≤ 50 * 1024 * 1024) :
    api_messages tok st = (.httpError 401, st) ∧
    api_userinfo tok st = (.httpError 401, st) ∧
    handle_message message tok now st = (.httpError 401, st) ∧
    handle_logout tok st = (.logoutOk, st) ∧
    processDecoded (some (some fd, some fn, txt)) fileId tok now st =
      (.httpError 401,
        { st with uploads :=
            st.uploads ++ [(fileId ++ "_" ++ String.mk fn, fd)] }) := by
  have hver : verify_session tok st = false := by
    simp [verify_session, hres]
  refine ⟨?_, ?_, ?_, ?_, ?_⟩
  · simp [api_messages, hver]
  · simp [api_userinfo, hver]
  · simp [handle_message, hver]
  · simp [handle_logout, session_revoke_of_resolve_none tok st.sessions hres]
  · simp only [processDecoded, hfd, hfn, Bool.not_false, Bool.and_self, if_true]
    rw [if_neg (by omega)]
    simp [hres]

/-- Witness for C1 (amended) on an empty server state. -/
theorem claim_C1_witness :
    api_messages (some "t") initState = (.httpError 401, initState) ∧
    api_userinfo (some "t") initState = (.httpError 401, initState) ∧
    handle_message "hi" (some "t") 0 initState = (.httpError 401, initState) ∧
    handle_logout (some "t") initState = (.logoutOk, initState) ∧
    processDecoded
      (some (some "0123456789".data, some "photo.png".data, "hello".data))
      "fid" (some "t") 0 initState =
      (.httpError 401,
        { initState with uploads :=
            initState.uploads ++
              [("fid" ++ "_" ++ String.mk "photo.png".data, "0123456789".data)] }) :=
  claim_C1 (some "t") "hi" "fid" 0 initState "0123456789".data "photo.png".data
    "hello".data (by decide) (by decide) (by decide) (by decide)

/-- Counterexample to C1 as frozen: an unauthenticated multipart upload
does perform a side effect (the attachment is written into the uploads
area before the session check), and an unauthenticated logout is answered
with the ordinary 200 response rather than an authorization-denied
error. -/
theorem claim_C1_counterexample :
    (handle_multipart "BOUND".data bodyFileAndText "fid" none 0 initState).1 =
      Response.httpError 401 ∧
    (handle_multipart "BOUND".data bodyFileAndText "fid" none 0 initState).2.uploads =
      [("fid_photo.png", "0123456789".data)] ∧
    initState.uploads = [] ∧
    handle_logout (some "t") initState = (.logoutOk, initState) ∧
    Response.logoutOk ≠ Response.httpError 401 := by
  decide

/-- The arguments of one `add_message` call. -/
structure AppendOp where
  username : String
  message : String
  message_type : String
  file_name : Option String
  file_size : Option Nat
  now : Nat
deriving DecidableEq, Repr

/-- Run one append against a state. -/
def applyOp (st : ServerState) (op : AppendOp) : ServerState :=
  add_message op.username op.message op.message_type op.file_name op.file_size
    op.now st

/-- Run a sequence of appends left to right. -/
def appendAll (ops : List AppendOp) (st : ServerState) : ServerState :=
  ops.foldl applyOp st

/-- The mirror dictionary an append produces. -/
def opToDict (op : AppendOp) : MsgDict :=
  ⟨op.username, op.message, op.message_type, op.file_name, op.file_size, op.now⟩

/-- The durable row an append produces under a given id. -/
def opToRow (n : Nat) (op : AppendOp) : MessageRow :=
  ⟨n, op.username, op.message, op.message_type, op.file_name, op.file_size, op.now⟩

/-- The durable rows a sequence of appends inserts, ids counting up from
`n`. -/
def rowsFrom (n : Nat) : List AppendOp → List MessageRow
  | [] => []
  | op :: rest => opToRow n op :: rowsFrom (n + 1) rest

/-- One append adds exactly one durable row, carrying the current
AUTOINCREMENT id. -/
theorem applyOp_db (st : ServerState) (op : AppendOp) :
    (applyOp st op).db = st.db ++ [opToRow st.nextId op] ∧
    (applyOp st op).nextId = st.nextId + 1 :=
  ⟨rfl, rfl⟩

/-- A fold of appends adds the rows `rowsFrom` describes and advances the
id counter by the number of appends. -/
theorem appendAll_db (ops : List AppendOp) (st : ServerState) :
    (appendAll ops st).db = st.db ++ rowsFrom st.nextId ops ∧
    (appendAll ops st).nextId = st.nextId + ops.length := by
  induction ops generalizing st with
  | nil => simp [appendAll, rowsFrom]
  | cons op rest ih =>
    have h1 : appendAll (op :: rest) st = appendAll rest (applyOp st op) := rfl
    rw [h1]
    obtain ⟨hdb, hid⟩ := ih (applyOp st op)
    refine ⟨?_, ?_⟩
    · rw [hdb, (applyOp_db st op).1, (applyOp_db st op).2]
      simp [rowsFrom]
    · rw [hid, (applyOp_db st op).2]
      simp only [List.length_cons]
      omega

/-- Inserting a row whose id is below everything in the list sends it to
the back. -/
theorem insertDescById_small (r : MessageRow) (l : List MessageRow)
    (h : ∀ x ∈ l, r.id < x.id) : insertDescById r l = l ++ [r] := by
  induction l with
  | nil => rfl
  | cons x xs ih =>
    have hx := h x (List.mem_cons_self x xs)
    rw [insertDescById, if_neg (by omega)]
    rw [ih (fun y hy => h y (List.mem_cons_of_mem _ hy))]
    rfl

/-- Sorting by descending id reverses a list whose ids strictly
increase. -/
theorem sortByIdDesc_of_increasing (l : List MessageRow)
    (h : List.Pairwise (fun a b => a.id < b.id) l) :
    sortByIdDesc l = l.reverse := by
  induction l with
  | nil => rfl
  | cons x xs ih =>
    rw [sortByIdDesc, ih (List.pairwise_cons.mp h).2]
    rw [insertDescById_small x xs.reverse
      (fun y hy => (List.pairwise_cons.mp h).1 y (List.mem_reverse.mp hy))]
    rw [List.reverse_cons]

/-- The ids inserted by `rowsFrom` are the consecutive range starting at
`n`. -/
theorem rowsFrom_ids (n : Nat) (ops : List AppendOp) :
    (rowsFrom n ops).map (fun r => r.id) = List.range' n ops.length := by
  induction ops generalizing n with
  | nil => rfl
  | cons op rest ih =>
    simp [rowsFrom, opToRow, List.range'_succ, ih]

/-- Every id inserted by `rowsFrom n` is at least `n`. -/
theorem rowsFrom_id_ge (n : Nat) (ops : List AppendOp) :
    ∀ r ∈ rowsFrom n ops, n ≤ r.id := by
  induction ops generalizing n with
  | nil => intro r hr; simp [rowsFrom] at hr
  | cons op rest ih =>
    intro r hr
    simp only [rowsFrom, List.mem_cons] at hr
    rcases hr with h | h
    · subst h; exact Nat.le_refl n
    · have := ih (n + 1) r h; omega

/-- The ids inserted by `rowsFrom` strictly increase along the list. -/
theorem rowsFrom_pairwise (n : Nat) (ops : List AppendOp) :
    List.Pairwise (fun a b => a.id < b.id) (rowsFrom n ops) := by
  induction ops generalizing n with
  | nil => exact List.Pairwise.nil
  | cons op rest ih =>
    refine List.pairwise_cons.mpr ⟨?_, ih (n + 1)⟩
    intro b hb
    have := rowsFrom_id_ge (n + 1) rest b hb
    simp only [opToRow]
    omega

/-- `rowsFrom` inserts one row per append. -/
theorem rowsFrom_length (n : Nat) (ops : List AppendOp) :
    (rowsFrom n ops).length = ops.length := by
  induction ops generalizing n with
  | nil => rfl
  | cons op rest ih => simp [rowsFrom, ih]

/-- Projecting the inserted rows onto client dictionaries forgets only the
id. -/
theorem rowsFrom_map_dict (n : Nat) (ops : List AppendOp) :
    (rowsFrom n ops).map rowToDict = ops.map opToDict := by
  induction ops generalizing n with
  | nil => rfl
  | cons op rest ih => simp [rowsFrom, ih]; rfl

/--
C3: `get_recent_messages` is the reversal of the first `limit` rows of the
durable store ordered by id descending (and so returns at most `limit`
messages); after N sequential appends on an empty store it returns all N
appended messages in insertion order, and the stored ids are the strictly
increasing range 1..N.
-/
theorem claim_C3 (ops : List AppendOp) (limit : Nat) (st0 : ServerState) :
    get_recent_messages limit st0 =
      (((sortByIdDesc st0.db).take limit).map rowToDict).reverse ∧
    (get_recent_messages limit st0).length ≤ limit ∧
    get_recent_messages ops.length (appendAll ops initState) = ops.map opToDict ∧
    (appendAll ops initState).db.map (fun r => r.id) = List.range' 1 ops.length := by
  have hdb : (appendAll ops initState).db = rowsFrom 1 ops := by
    have h := (appendAll_db ops initState).1
    simpa [initState] using h
  refine ⟨rfl, ?_, ?_, ?_⟩
  · simp only [get_recent_messages, List.length_reverse, List.length_map,
      List.length_take]
    omega
  · rw [get_recent_messages, hdb,
      sortByIdDesc_of_increasing _ (rowsFrom_pairwise 1 ops)]
    have hlen : (rowsFrom 1 ops).reverse.length = ops.length := by
      simp [rowsFrom_length]
    rw [← hlen, List.take_length]
    simp [List.map_reverse, rowsFrom_map_dict]
  · rw [hdb, rowsFrom_ids]

/-- What one append does to the mirror, written with a single drop. -/
theorem applyOp_mirror (st : ServerState) (op : AppendOp) :
    (applyOp st op).mirror =
      (st.mirror ++ [opToDict op]).drop
        ((st.mirror ++ [opToDict op]).length - 100) := by
  by_cases h : (st.mirror ++ [opToDict op]).length > 100
  · show (if (st.mirror ++ [opToDict op]).length > 100 then _ else _) = _
    rw [if_pos h]
    rfl
  · show (if (st.mirror ++ [opToDict op]).length > 100 then _ else _) = _
    rw [if_neg h]
    have h0 : (st.mirror ++ [opToDict op]).length - 100 = 0 := by
      simp only [List.length_append, List.length_cons, List.length_nil] at h ⊢
      omega
    rw [h0, List.drop_zero]
    rfl

/-- Keeping the last `n` elements before appending one more element does
not change which last `n` elements survive. -/
theorem keep_last_absorb {α : Type} (n : Nat) (m : List α) (e : α) :
    (m.drop (m.length - n) ++ [e]).drop
      ((m.drop (m.length - n) ++ [e]).length - n) =
    (m ++ [e]).drop ((m ++ [e]).length - n) := by
  by_cases hle : m.length ≤ n
  · have h0 : m.length - n = 0 := by omega
    rw [h0, List.drop_zero]
  · rcases Nat.eq_zero_or_pos n with hn | hn
    · subst hn
      simp
    · have hlt : n < m.length := by omega
      have hlen : (m.drop (m.length - n)).length = n := by
        simp only [List.length_drop]
        omega
      have hL : (m.drop (m.length - n) ++ [e]).length - n = 1 := by
        simp only [List.length_append, hlen, List.length_cons, List.length_nil]
        omega
      have hR : (m ++ [e]).length - n = (m.length - n) + 1 := by
        simp only [List.length_append, List.length_cons, List.length_nil]
        omega
      rw [hL, hR]
      rw [List.drop_append_of_le_length (by omega : 1 ≤ (m.drop (m.length - n)).length)]
      rw [List.drop_append_of_le_length (by omega : m.length - n + 1 ≤ m.length)]
      rw [List.drop_drop]

/-- The mirror after a fold of appends holds the last 100 of the
accumulated dictionaries. -/
theorem appendAll_mirror (ops : List AppendOp) (acc : List MsgDict)
    (st : ServerState)
    (hst : st.mirror = acc.drop (acc.length - 100)) :
    (appendAll ops st).mirror =
      (acc ++ ops.map opToDict).drop ((acc ++ ops.map opToDict).length - 100) := by
  induction ops generalizing acc st with
  | nil => simpa using hst
  | cons op rest ih =>
    have h1 : appendAll (op :: rest) st = appendAll rest (applyOp st op) := rfl
    rw [h1]
    have hmir : (applyOp st op).mirror =
        (acc ++ [opToDict op]).drop ((acc ++ [opToDict op]).length - 100) := by
      rw [applyOp_mirror, hst]
      exact keep_last_absorb 100 acc (opToDict op)
    have h2 := ih (acc ++ [opToDict op]) (applyOp st op) hmir
    rw [h2]
    simp [List.append_assoc]

/--
C4: after any sequence of appends starting from the empty mirror, the
mirror holds exactly the last min(n, 100) of the n appended messages in
insertion order (oldest evicted first), so it never exceeds 100 entries.
-/
theorem claim_C4 (ops : List AppendOp) :
    (appendAll ops initState).mirror =
      (ops.map opToDict).drop (ops.length - 100) ∧
    (appendAll ops initState).mirror.length = min ops.length 100 := by
  have h := appendAll_mirror ops [] initState (by simp [initState])
  simp only [List.nil_append, List.length_map] at h
  refine ⟨h, ?_⟩
  rw [h]
  simp only [List.length_drop, List.length_map]
  omega
